import Mathlib

/-!
Verification development for the name-address-service repository.

The Python modules `src/core/validators.py`, `src/core/services.py` and
`src/ui/app.py` are shallowly embedded below.  Python strings are modelled
as Lean `String`s over their character lists; Python's `str.lower`,
`str.upper`, `str.strip`, `str.split`, `str.rstrip` and the concrete
regular expressions appearing in the source are implemented character by
character with ASCII semantics (all dictionary data and all control flow
in the source operate on ASCII text).  Floating point confidence scores
are modelled as rationals: every confidence value produced by the source
is an integer between 0 and 99, so rational arithmetic is exact here.
-/

namespace NameAddressService

/-! ## Python string primitives -/

/-- Python `\s` / `str.split` whitespace set (ASCII part). -/
def isSpaceB (c : Char) : Bool :=
  c = ' ' || c = '\t' || c = '\n' || c = '\r' || c = '\x0b' || c = '\x0c'

def isDigitB (c : Char) : Bool := '0' ≤ c && c ≤ '9'

def isUpperAZ (c : Char) : Bool := 'A' ≤ c && c ≤ 'Z'

def isLowerAZ (c : Char) : Bool := 'a' ≤ c && c ≤ 'z'

def isAlphaB (c : Char) : Bool := isUpperAZ c || isLowerAZ c

/-- Python `\w` word character (ASCII part). -/
def isWordCharB (c : Char) : Bool := isAlphaB c || isDigitB c || c = '_'

/-- The ASCII letter case table: (lowercase, uppercase) pairs. -/
def azPairs : List (Char × Char) :=
  [('a', 'A'), ('b', 'B'), ('c', 'C'), ('d', 'D'), ('e', 'E'), ('f', 'F'),
   ('g', 'G'), ('h', 'H'), ('i', 'I'), ('j', 'J'), ('k', 'K'), ('l', 'L'),
   ('m', 'M'), ('n', 'N'), ('o', 'O'), ('p', 'P'), ('q', 'Q'), ('r', 'R'),
   ('s', 'S'), ('t', 'T'), ('u', 'U'), ('v', 'V'), ('w', 'W'), ('x', 'X'),
   ('y', 'Y'), ('z', 'Z')]

/-- Python `str.lower()` on one character (ASCII table). -/
def pyLowerC (c : Char) : Char :=
  ((azPairs.find? (fun p => p.2 = c)).map Prod.fst).getD c

/-- Python `str.upper()` on one character (ASCII table). -/
def pyUpperC (c : Char) : Char :=
  ((azPairs.find? (fun p => p.1 = c)).map Prod.snd).getD c

def pyLower (s : String) : String := ⟨s.data.map pyLowerC⟩

def pyUpper (s : String) : String := ⟨s.data.map pyUpperC⟩

def pyStripList (l : List Char) : List Char :=
  ((l.dropWhile isSpaceB).reverse.dropWhile isSpaceB).reverse

/-- Python `str.strip()`. -/
def pyStrip (s : String) : String := ⟨pyStripList s.data⟩

/-- Python `str.rstrip('.')`. -/
def pyRstripDot (s : String) : String :=
  ⟨(s.data.reverse.dropWhile (fun c => c = '.')).reverse⟩

/-- Single pass of Python `str.split()`, accumulating the current word
reversed. -/
def pySplitWsGo (cur : List Char) : List Char → List (List Char)
  | [] => if cur.isEmpty then [] else [cur.reverse]
  | c :: cs =>
    if isSpaceB c then
      if cur.isEmpty then pySplitWsGo [] cs else cur.reverse :: pySplitWsGo [] cs
    else pySplitWsGo (c :: cur) cs

/-- Python `str.split()` (split on whitespace runs, dropping empty parts). -/
def pySplitWs (l : List Char) : List (List Char) := pySplitWsGo [] l

def pySplitWsStr (s : String) : List String := (pySplitWs s.data).map List.asString

/-- Single pass collecting maximal word-character runs. -/
def wordRunsGo (cur : List Char) : List Char → List (List Char)
  | [] => if cur.isEmpty then [] else [cur.reverse]
  | c :: cs =>
    if isWordCharB c then wordRunsGo (c :: cur) cs
    else if cur.isEmpty then wordRunsGo [] cs else cur.reverse :: wordRunsGo [] cs

/-- Maximal word-character runs of a string; an occurrence of a word-only
pattern surrounded by `\b` boundaries is exactly a run equal to it. -/
def wordRuns (l : List Char) : List (List Char) := wordRunsGo [] l

/-- Contiguous-infix test on character lists. -/
def isInfixB (needle : List Char) : List Char → Bool
  | [] => needle.isEmpty
  | c :: cs => needle.isPrefixOf (c :: cs) || isInfixB needle cs

/-- Python `needle in haystack` (contiguous substring test). -/
def substrB (needle hay : String) : Bool := isInfixB needle.data hay.data

/-- Python `str.endswith(tuple)`. -/
def endsWithAny (s : String) (tails : List String) : Bool :=
  tails.any (fun t => t.data.isSuffixOf s.data)

/-- First-match association-list lookup (the Python dicts embedded below have
no duplicate keys with conflicting values, so this agrees with dict lookup). -/
def lookupStr (m : List (String × String)) (k : String) : Option String :=
  match m.find? (fun p => p.1 = k) with
  | some p => some p.2
  | none => none

/-- Python `str.title()` (ASCII): uppercase each letter that follows a
non-letter, lowercase the other letters. -/
def pyTitleGo : Bool → List Char → List Char
  | _, [] => []
  | prevAlpha, c :: cs =>
    (if isAlphaB c then (if prevAlpha then pyLowerC c else pyUpperC c) else c)
      :: pyTitleGo (isAlphaB c) cs

def pyTitle (s : String) : String := ⟨pyTitleGo false s.data⟩

/-! ## Data model (`src/core/validators.py`, class `NameValidator`)

The validator's mutable dictionary state after `_load_dictionaries`:
finite sets are modelled as lists of strings with `contains` membership,
the two maps as association lists. -/

structure NameValidator where
  dictionary_loaded : Bool
  first_names_set : List String
  surnames_set : List String
  business_words_set : List String
  company_suffixes_set : List String
  name_prefixes_set : List String
  name_to_gender : List (String × String)
  nickname_to_standard : List (String × String)
deriving Repr, DecidableEq

/-! Fixed fallback tables from `_initialize_ai_patterns`. -/

def ai_name_standardizations : List (String × String) :=
  [("bill", "william"), ("bob", "robert"), ("dick", "richard"), ("jim", "james"),
   ("joe", "joseph"), ("mike", "michael"), ("steve", "steven"), ("dave", "david"),
   ("tom", "thomas"), ("tony", "anthony"), ("chris", "christopher"), ("matt", "matthew"),
   ("dan", "daniel"), ("sam", "samuel"), ("alex", "alexander"), ("ben", "benjamin"),
   ("nick", "nicholas"), ("rick", "richard"), ("will", "william"), ("tim", "timothy"),
   ("pat", "patricia"), ("sue", "susan"), ("liz", "elizabeth"), ("kate", "katherine"),
   ("beth", "elizabeth"), ("anne", "ann"), ("maggie", "margaret"), ("peg", "margaret"),
   ("jen", "jennifer"), ("jenn", "jennifer"), ("amy", "amelia"), ("becky", "rebecca")]

def ai_prefixes : List String :=
  ["mr", "mrs", "ms", "miss", "dr", "drs", "prof", "professor", "rev", "reverend",
   "father", "mother", "sister", "brother", "sir", "lady", "lord", "dame",
   "capt", "captain", "col", "colonel", "maj", "major", "lt", "lieutenant",
   "sgt", "sergeant", "gen", "general", "admiral", "judge", "justice"]

def ai_suffixes : List String :=
  ["jr", "sr", "ii", "iii", "iv", "v", "vi", "vii", "viii", "ix", "x",
   "md", "phd", "edd", "jd", "cpa", "dds", "dvm", "rn", "lpn", "pa",
   "esq", "esquire", "pe", "cpe", "cfa", "mba", "ms", "ma", "bs", "ba"]

def ai_org_indicators : List String :=
  ["llc", "inc", "corp", "corporation", "company", "ltd", "limited", "co.",
   "hospital", "medical", "clinic", "center", "centre", "services", "solutions",
   "group", "partners", "associates", "firm", "office", "bank", "trust",
   "foundation", "institute", "university", "college", "school", "academy", "jtly", "jointly"]

/-! ## Name parsing (`_enhanced_parse_name`) -/

structure ParsedName where
  pfx : String
  first_name : String
  middle_name : String
  last_name : String
  sfx : String
deriving Repr, DecidableEq

/-- `_enhanced_parse_name`.  The source's `re.sub(r'[^\w\s\.]', ' ', ...)`
is the character map below; its `' '.join(name.split())` followed by
`name.split()` yields the same token list as splitting the cleaned text
once, which is how `parts` is computed here. -/
def _enhanced_parse_name (v : NameValidator) (full_name : String) : ParsedName :=
  if pyStrip full_name = "" then ⟨"", "", "", "", ""⟩
  else
    let cleaned := full_name.data.map
      (fun c => if isWordCharB c || isSpaceB c || c = '.' then c else ' ')
    let parts : List String := (pySplitWs cleaned).map List.asString
    let pfxStep : String × List String :=
      match parts with
      | [] => ("", parts)
      | p0 :: rest =>
        let first_part := pyRstripDot (pyLower p0)
        if v.dictionary_loaded && !v.name_prefixes_set.isEmpty then
          if v.name_prefixes_set.contains first_part then (pyRstripDot p0, rest)
          else ("", parts)
        else if ai_prefixes.contains first_part then (pyRstripDot p0, rest)
        else ("", parts)
    let pfx := pfxStep.1
    let name_parts := pfxStep.2
    let sfxStep : String × List String :=
      match name_parts.getLast? with
      | none => ("", name_parts)
      | some lastp =>
        if ai_suffixes.contains (pyRstripDot (pyLower lastp)) then
          (pyRstripDot lastp, name_parts.dropLast)
        else ("", name_parts)
    let sfx := sfxStep.1
    match sfxStep.2 with
    | [] => ⟨pfx, "", "", "", sfx⟩
    | [f] => ⟨pfx, f, "", "", sfx⟩
    | [f, l] => ⟨pfx, f, "", l, sfx⟩
    | f :: rest => ⟨pfx, f, String.intercalate " " rest.dropLast, rest.getLastD "", sfx⟩

/-! ## Name standardization and gender prediction -/

/-- `_standardize_name`: dictionary nickname lookup, then fixed fallback
table (title-cased), else the input title-cased. -/
def _standardize_name (v : NameValidator) (name : String) : String :=
  if name = "" then ""
  else
    let name_lower := pyLower name
    match (if v.dictionary_loaded && !v.nickname_to_standard.isEmpty then
             lookupStr v.nickname_to_standard name_lower else none) with
    | some std => std
    | none =>
      match lookupStr ai_name_standardizations name_lower with
      | some std => pyTitle std
      | none => pyTitle name

def common_female : List String :=
  ["mary", "jennifer", "patricia", "linda", "barbara", "susan", "jessica",
   "sarah", "karen", "nancy", "lisa", "betty", "helen", "sandra", "donna"]

def common_male : List String :=
  ["james", "john", "robert", "michael", "william", "david", "richard",
   "charles", "joseph", "thomas", "christopher", "daniel", "paul", "mark"]

/-- `_ai_gender_prediction`: signed suffix-pattern score, hard-coded
common-name override, then thresholded decision. -/
def _ai_gender_prediction (name_lower : String) : String :=
  let s1 : Int :=
    if endsWithAny name_lower ["a", "ia", "ana", "ella", "ina", "lyn", "lynn", "elle", "ette"]
    then -3 else 0
  let s2 : Int := if endsWithAny name_lower ["y", "ie", "ey"] then s1 - 1 else s1
  let s3 : Int := if endsWithAny name_lower ["er", "on", "an", "en", "son", "ton", "man"]
    then s2 + 2 else s2
  let s4 : Int := if endsWithAny name_lower ["ck", "x", "z"] then s3 + 1 else s3
  if common_female.contains name_lower then "F"
  else if common_male.contains name_lower then "M"
  else if s4 ≤ -2 then "F"
  else if s4 ≥ 2 then "M"
  else ""

/-- `_predict_gender`: gender-dictionary lookup, else the heuristic. -/
def _predict_gender (v : NameValidator) (first_name : String) : String :=
  if first_name = "" then ""
  else
    let name_lower := pyLower first_name
    match (if v.dictionary_loaded && !v.name_to_gender.isEmpty then
             lookupStr v.name_to_gender name_lower else none) with
    | some g => g
    | none => _ai_gender_prediction name_lower

/-! ## Party-type classification (`_determine_organization` and its AI fallback)

The two `re.search` personal-name patterns of `_ai_organization_detection`
are implemented as explicit scanners.  A `\b` boundary before a
word-character position holds exactly when the previous character is not a
word character (or the position is the start), which is what
`scanBoundary` tracks; the greedy pieces `\s+` and `[a-z]+` are forced to
their maximal runs by the character class that follows each of them, so
the maximal-run parse below is complete for `re.search` existence. -/

/-- Try the matcher at every position that sits at a `\b` boundary
(previous character absent or not a word character). -/
def scanBoundary (m : List Char → Bool) : Bool → List Char → Bool
  | _, [] => false
  | bnd, c :: cs => (bnd && m (c :: cs)) || scanBoundary m (!isWordCharB c) cs

/-- Boundary check after an alternation word: end of input or a non-word
character. -/
def bndAfter : List Char → Bool
  | [] => true
  | d :: _ => !isWordCharB d

/-- Tail of `\b(mr|mrs|ms|dr)\s+[a-z]+\s+[a-z]+\b` after the title word. -/
def afterTitle (l : List Char) : Bool :=
  let r1 := l.dropWhile isSpaceB
  if l.takeWhile isSpaceB |>.isEmpty then false
  else
    let r2 := r1.dropWhile isLowerAZ
    if r1.takeWhile isLowerAZ |>.isEmpty then false
    else
      let r3 := r2.dropWhile isSpaceB
      if r2.takeWhile isSpaceB |>.isEmpty then false
      else
        let r4 := r3.dropWhile isLowerAZ
        if r3.takeWhile isLowerAZ |>.isEmpty then false
        else bndAfter r4

/-- `re.search(r'\b(mr|mrs|ms|dr)\s+[a-z]+\s+[a-z]+\b', ...)`. -/
def matchTitlePersonal (l : List Char) : Bool :=
  scanBoundary
    (fun l' => ["mr", "mrs", "ms", "dr"].any
      (fun t => t.data.isPrefixOf l' && afterTitle (l'.drop t.length)))
    true l

/-- `re.search(r'\b[a-z]+\s+(jr|sr|ii|iii)\b', ...)`. -/
def matchGenSuffixPersonal (l : List Char) : Bool :=
  scanBoundary
    (fun l' =>
      let r1 := l'.dropWhile isLowerAZ
      if l'.takeWhile isLowerAZ |>.isEmpty then false
      else
        let r2 := r1.dropWhile isSpaceB
        if r1.takeWhile isSpaceB |>.isEmpty then false
        else ["jr", "sr", "ii", "iii"].any
          (fun t => t.data.isPrefixOf r2 && bndAfter (r2.drop t.length)))
    true l

/-- `_ai_organization_detection`.  `re.search(r'\b(llc|inc|corp|ltd)\b', ...)`
holds exactly when one maximal word-character run equals one of the four
words, which is the `wordRuns` test below. -/
def _ai_organization_detection (name_lower : String) : Bool × Rat × String :=
  let l := name_lower.data
  let s1 : Int := 10 * ((ai_org_indicators.filter (fun ind => substrB ind name_lower)).length : Int)
  let s2 : Int := if (wordRuns l).any
      (fun w => ["llc", "inc", "corp", "ltd"].contains (List.asString w)) then s1 + 15 else s1
  let s3 : Int := if (pySplitWs l).length > 3 then s2 + 5 else s2
  let s4 : Int := if matchTitlePersonal l then s3 - 8 else s3
  let org_score : Int := if matchGenSuffixPersonal l then s4 - 8 else s4
  let is_org := org_score > 10
  let confidence : Rat := min 80 (50 + (org_score.natAbs : Rat) * 2)
  (is_org, confidence, "ai_pattern_matching")

/-- `_determine_organization`: empty-name guard, explicit hints, the three
dictionary rules (company-suffix substring, business-word token,
first+last dictionary hit), then the AI fallback. -/
def _determine_organization (v : NameValidator) (full_name : String)
    (party_type_hint : String) : Bool × Rat × String :=
  if full_name = "" then (false, 0, "empty_name")
  else if party_type_hint = "O" then (true, 99, "explicit_org")
  else if party_type_hint = "I" then (false, 99, "explicit_individual")
  else
    let name_lower := pyLower full_name
    if v.dictionary_loaded then
      if !v.company_suffixes_set.isEmpty &&
          v.company_suffixes_set.any (fun sfx => substrB sfx name_lower) then
        (true, 95, "deterministic_suffix")
      else if !v.business_words_set.isEmpty &&
          (pySplitWsStr name_lower).any (fun w => v.business_words_set.contains w) then
        (true, 92, "deterministic_business_word")
      else
        let name_parts := pySplitWsStr name_lower
        if 2 ≤ name_parts.length &&
            v.first_names_set.contains (name_parts.headD "") &&
            v.surnames_set.contains (name_parts.getLastD "") then
          (false, 94, "deterministic_individual")
        else _ai_organization_detection name_lower
    else _ai_organization_detection name_lower

/-! ## Confidence & method resolver (`_calculate_confidence`) -/

/-- `_calculate_confidence`: base 50, per-component dictionary/heuristic
increments with deterministic/ai counters, tiered method decision with
per-method confidence cap. -/
def _calculate_confidence (v : NameValidator) (parsed : ParsedName)
    (predicted_gender : String) : Rat × String :=
  let base : Nat × Nat × Rat := (0, 0, 50)
  let firstStep : Nat × Nat × Rat :=
    if parsed.first_name ≠ "" then
      if v.dictionary_loaded && v.first_names_set.contains (pyLower parsed.first_name) then
        (base.1 + 1, base.2.1, base.2.2 + 20)
      else (base.1, base.2.1 + 1, base.2.2 + 10)
    else base
  let lastStep : Nat × Nat × Rat :=
    if parsed.last_name ≠ "" then
      if v.dictionary_loaded && v.surnames_set.contains (pyLower parsed.last_name) then
        (firstStep.1 + 1, firstStep.2.1, firstStep.2.2 + 20)
      else (firstStep.1, firstStep.2.1 + 1, firstStep.2.2 + 10)
    else firstStep
  let genderStep : Nat × Nat × Rat :=
    if predicted_gender ≠ "" then
      if v.dictionary_loaded && parsed.first_name ≠ "" &&
          (lookupStr v.name_to_gender (pyLower parsed.first_name)).isSome then
        (lastStep.1 + 1, lastStep.2.1, lastStep.2.2 + 10)
      else (lastStep.1, lastStep.2.1 + 1, lastStep.2.2 + 5)
    else lastStep
  let det := genderStep.1
  let ai := genderStep.2.1
  let confidence := genderStep.2.2
  if det > ai then (min confidence 99, "deterministic")
  else if det = ai && det > 0 then (min confidence 90, "hybrid")
  else (min confidence 80, "ai_fallback")

/-! ## Name validation orchestrator (`validate_name_record`)

Input records are Python dicts read with `record.get(key, '')`; a missing
key and an empty value are indistinguishable to the function, so the
record is modelled with plain string fields.  The `confidenceScore` output
is the rational value the source formats with `f"{confidence:.4f}"`
(value-preserving here: every produced score is an integer). -/

structure NameRecordIn where
  uniqueID : String
  fullName : String
  genderCd : String
  partyTypeCd : String
  parseInd : String
deriving Repr, DecidableEq

structure NameResult where
  uniqueID : String
  partyTypeCd : String
  pfx : Option String
  firstName : Option String
  firstNameStd : Option String
  middleName : Option String
  lastName : Option String
  sfx : Option String
  fullName : String
  inGenderCd : String
  outGenderCd : String
  pfxLt : Option String
  firstNameLt : Option String
  middleNameLt : Option String
  lastNameLt : Option String
  sfxLt : Option String
  parseInd : String
  confidenceScore : Rat
  parseStatus : String
  errorMessage : String
  validationMethod : String
deriving Repr, DecidableEq

/-- The `result` dict as initialized at the top of `validate_name_record`. -/
def base_result (r : NameRecordIn) : NameResult :=
  let parse_ind := pyUpper (pyStrip r.parseInd)
  { uniqueID := r.uniqueID
    partyTypeCd := ""
    pfx := none, firstName := none, firstNameStd := none
    middleName := none, lastName := none, sfx := none
    fullName := pyStrip r.fullName
    inGenderCd := pyUpper (pyStrip r.genderCd)
    outGenderCd := ""
    pfxLt := none, firstNameLt := none, middleNameLt := none
    lastNameLt := none, sfxLt := none
    parseInd := if parse_ind = "" then "Y" else parse_ind
    confidenceScore := 0
    parseStatus := "Error"
    errorMessage := "Processing error"
    validationMethod := "unknown" }

/-- `str.upper()` of an optional component, `None` when the component is
empty (`parsed['x'].upper() if parsed['x'] else None`). -/
def ltField (s : String) : Option String := if s ≠ "" then some (pyUpper s) else none

/-- The individual + parse branch of `validate_name_record` (steps 2-5:
parse, literal fields, standardization, gender, confidence and status). -/
def individual_parse_result (v : NameValidator) (r : NameRecordIn) : NameResult :=
  let full_name := pyStrip r.fullName
  let gender_cd := pyUpper (pyStrip r.genderCd)
  let parsed := _enhanced_parse_name v full_name
  let firstNameStd := if parsed.first_name ≠ "" then some (_standardize_name v parsed.first_name)
    else none
  let outGenderCd := if gender_cd = "" && parsed.first_name ≠ "" then _predict_gender v parsed.first_name
    else gender_cd
  let cm := _calculate_confidence v parsed outGenderCd
  let confidence := cm.1
  let validation_method := cm.2
  let statusMsg : String × String :=
    if confidence ≥ 90 then
      ("Parsed", if substrB "deterministic" validation_method then "Dictionary Validated"
        else "Probably Valid")
    else if confidence ≥ 70 then ("Parsed", "Possibly Valid")
    else ("Warning", "Low Confidence")
  { base_result r with
    partyTypeCd := "I"
    pfx := some parsed.pfx
    firstName := some parsed.first_name
    middleName := some parsed.middle_name
    lastName := some parsed.last_name
    sfx := some parsed.sfx
    pfxLt := ltField parsed.pfx
    firstNameLt := ltField parsed.first_name
    middleNameLt := ltField parsed.middle_name
    lastNameLt := ltField parsed.last_name
    sfxLt := ltField parsed.sfx
    firstNameStd := firstNameStd
    outGenderCd := outGenderCd
    confidenceScore := confidence
    validationMethod := validation_method
    parseStatus := statusMsg.1
    errorMessage := statusMsg.2 }

/-- The `parseInd != 'Y'` branch: parsing not requested. -/
def no_parse_result (r : NameRecordIn) : NameResult :=
  { base_result r with
    partyTypeCd := "I"
    parseStatus := "Not Parsed"
    errorMessage := "Parsing not requested"
    confidenceScore := 80
    outGenderCd := pyUpper (pyStrip r.genderCd)
    validationMethod := "no_parse" }

/-- The `try:` body of `validate_name_record` (the happy path; the pure
embedding of the body cannot raise). -/
def validate_name_record_body (v : NameValidator) (r : NameRecordIn) : NameResult :=
  let full_name := pyStrip r.fullName
  let party_type_cd := pyUpper (pyStrip r.partyTypeCd)
  let org := _determine_organization v full_name party_type_cd
  if org.1 then
    { base_result r with
      partyTypeCd := "O"
      outGenderCd := ""
      parseStatus := "Organization"
      errorMessage := "Valid Organization"
      confidenceScore := org.2.1
      validationMethod := org.2.2 }
  else if (base_result r).parseInd = "Y" then individual_parse_result v r
  else no_parse_result r

/-- The `except Exception as e:` handler of `validate_name_record`,
applied to whatever partial result the body had built. -/
def apply_record_error (res : NameResult) (e : String) : NameResult :=
  { res with
    parseStatus := "Error"
    errorMessage := "Processing error: " ++ e
    confidenceScore := 0
    validationMethod := "error" }

/-- `validate_name_record` with the outcome of the `try:` body made
explicit: `.ok` is a completed body, `.error (res, e)` is an exception
`e` raised while the result dict held `res`. -/
def validate_name_record_with (body : Except (NameResult × String) NameResult) : NameResult :=
  match body with
  | .ok res => res
  | .error (res, e) => apply_record_error res e

/-- `validate_name_record` on the pure (non-raising) body. -/
def validate_name_record (v : NameValidator) (r : NameRecordIn) : NameResult :=
  validate_name_record_with (.ok (validate_name_record_body v r))

/-! ## Batch loop (`src/core/services.py`, `validate_names`)

The per-record processor is abstracted as a fallible function so that the
loop's exception isolation is visible: the source wraps each
`validate_name_record` call in `try/except` and appends either the result
or a fresh error record built from the input record alone. -/

/-- The error result dict built in the `except` branch of the
`validate_names` loop. -/
def services_error_result (r : NameRecordIn) (e : String) : NameResult :=
  { uniqueID := r.uniqueID
    partyTypeCd := ""
    pfx := none, firstName := none, firstNameStd := none
    middleName := none, lastName := none, sfx := none
    fullName := r.fullName
    inGenderCd := r.genderCd
    outGenderCd := ""
    pfxLt := none, firstNameLt := none, middleNameLt := none
    lastNameLt := none, sfxLt := none
    parseInd := r.parseInd
    confidenceScore := 0
    parseStatus := "Error"
    errorMessage := "Processing error: " ++ e
    validationMethod := "error" }

/-- One iteration of the `validate_names` loop body. -/
def processOne (process : NameRecordIn → Except String NameResult)
    (r : NameRecordIn) : NameResult :=
  match process r with
  | .ok res => res
  | .error e => services_error_result r e

/-- The result list accumulated by the `validate_names` loop. -/
def validate_names_results (process : NameRecordIn → Except String NameResult) :
    List NameRecordIn → List NameResult
  | [] => []
  | r :: rs => processOne process r :: validate_names_results process rs

/-! ## Address categorization (`src/ui/app.py`)

State tables from the dashboard class constructor.  The Python dict
literal `state_name_to_code` repeats a few keys (each repetition binds
the same value, e.g. `'florida': 'FL'` twice), so the first-match
association lookup below agrees with Python dict lookup. -/

def state_name_to_code : List (String × String) :=
  [("alabama", "AL"), ("alaska", "AK"), ("arizona", "AZ"), ("arkansas", "AR"),
   ("california", "CA"), ("colorado", "CO"), ("connecticut", "CT"), ("delaware", "DE"),
   ("florida", "FL"), ("georgia", "GA"), ("hawaii", "HI"), ("idaho", "ID"),
   ("illinois", "IL"), ("indiana", "IN"), ("iowa", "IA"), ("kansas", "KS"),
   ("kentucky", "KY"), ("louisiana", "LA"), ("maine", "ME"), ("maryland", "MD"),
   ("massachusetts", "MA"), ("michigan", "MI"), ("minnesota", "MN"), ("mississippi", "MS"),
   ("missouri", "MO"), ("montana", "MT"), ("nebraska", "NE"), ("nevada", "NV"),
   ("new hampshire", "NH"), ("new jersey", "NJ"), ("new mexico", "NM"), ("new york", "NY"),
   ("north carolina", "NC"), ("north dakota", "ND"), ("ohio", "OH"), ("oklahoma", "OK"),
   ("oregon", "OR"), ("pennsylvania", "PA"), ("rhode island", "RI"), ("south carolina", "SC"),
   ("south dakota", "SD"), ("tennessee", "TN"), ("texas", "TX"), ("utah", "UT"),
   ("vermont", "VT"), ("virginia", "VA"), ("washington", "WA"), ("west virginia", "WV"),
   ("wisconsin", "WI"), ("wyoming", "WY"), ("district of columbia", "DC"),
   ("calif", "CA"), ("cali", "CA"), ("cal", "CA"),
   ("fla", "FL"), ("florida", "FL"),
   ("tex", "TX"), ("texas", "TX"),
   ("penn", "PA"), ("penna", "PA"),
   ("mass", "MA"), ("massachusetts", "MA"),
   ("conn", "CT"), ("connecticut", "CT"),
   ("wash", "WA"), ("washington", "WA"),
   ("ore", "OR"), ("oreg", "OR"),
   ("mich", "MI"), ("michigan", "MI"),
   ("ill", "IL"), ("illinois", "IL"),
   ("ind", "IN"), ("indiana", "IN"),
   ("tenn", "TN"), ("tennessee", "TN"),
   ("ky", "KY"), ("kentucky", "KY"),
   ("la", "LA"), ("louisiana", "LA"),
   ("miss", "MS"), ("mississippi", "MS"),
   ("ala", "AL"), ("alabama", "AL"),
   ("ga", "GA"), ("georgia", "GA"),
   ("nc", "NC"), ("n carolina", "NC"), ("n. carolina", "NC"),
   ("sc", "SC"), ("s carolina", "SC"), ("s. carolina", "SC"),
   ("nd", "ND"), ("n dakota", "ND"), ("n. dakota", "ND"),
   ("sd", "SD"), ("s dakota", "SD"), ("s. dakota", "SD"),
   ("wv", "WV"), ("w virginia", "WV"), ("w. virginia", "WV"),
   ("dc", "DC"), ("d.c.", "DC"), ("washington dc", "DC"), ("washington d.c.", "DC")]

def valid_state_codes : List String :=
  ["AL", "AK", "AZ", "AR", "CA", "CO", "CT", "DE", "FL", "GA",
   "HI", "ID", "IL", "IN", "IA", "KS", "KY", "LA", "ME", "MD",
   "MA", "MI", "MN", "MS", "MO", "MT", "NE", "NV", "NH", "NJ",
   "NM", "NY", "NC", "ND", "OH", "OK", "OR", "PA", "RI", "SC",
   "SD", "TN", "TX", "UT", "VT", "VA", "WA", "WV", "WI", "WY", "DC"]

/-- `cleaned_input.replace('.', '').replace(',', '')`. -/
def removeDotComma (s : String) : String :=
  ⟨s.data.filter (fun c => !(c = '.' || c = ','))⟩

/-- `_normalize_state_input`: returns
`(normalized_code, is_valid, original_input)`. -/
def _normalize_state_input (state_input : String) : String × Bool × String :=
  if pyStrip state_input = "" then ("", false, state_input)
  else
    let cleaned_input := pyLower (pyStrip state_input)
    let original_input := pyStrip state_input
    if cleaned_input.length = 2 && valid_state_codes.contains (pyUpper cleaned_input) then
      (pyUpper cleaned_input, true, original_input)
    else
      match lookupStr state_name_to_code cleaned_input with
      | some code => (code, true, original_input)
      | none =>
        match lookupStr state_name_to_code (removeDotComma cleaned_input) with
        | some code => (code, true, original_input)
        | none => (pyUpper original_input, false, original_input)

/-! ZIP code patterns (`_analyze_zip_code`).  Each Python regex (all of
them anchored with `^...$`) is implemented as a whole-string predicate on
the character list it is matched against. -/

def allDigits (l : List Char) : Bool := l.all isDigitB

/-- `^\d{5}$`. -/
def usZip5 (l : List Char) : Bool := allDigits l && l.length = 5

/-- `^\d{9}$`. -/
def usZip9 (l : List Char) : Bool := allDigits l && l.length = 9

/-- `^\d{5}-?\d{4}$`. -/
def usZip5Dash4 (l : List Char) : Bool :=
  (allDigits l && l.length = 9) ||
  (l.length = 10 && allDigits (l.take 5) && l.get? 5 = some '-' && allDigits (l.drop 6))

/-- `^[A-Z]\d[A-Z]\s?\d[A-Z]\d$` (Canada). -/
def canadaZip : List Char → Bool
  | [a, b, c, d, e, f] =>
    isUpperAZ a && isDigitB b && isUpperAZ c && isDigitB d && isUpperAZ e && isDigitB f
  | [a, b, c, s, d, e, f] =>
    isUpperAZ a && isDigitB b && isUpperAZ c && isSpaceB s &&
    isDigitB d && isUpperAZ e && isDigitB f
  | _ => false

/-- Tail `\s?\d[A-Z]{2}$` of the UK pattern. -/
def ukTail : List Char → Bool
  | [d, a, b] => isDigitB d && isUpperAZ a && isUpperAZ b
  | [s, d, a, b] => isSpaceB s && isDigitB d && isUpperAZ a && isUpperAZ b
  | _ => false

/-- Middle `\d[A-Z\d]?` + tail of the UK pattern. -/
def ukAfterLetters : List Char → Bool
  | d :: r =>
    isDigitB d && (ukTail r ||
      (match r with
       | x :: r2 => (isUpperAZ x || isDigitB x) && ukTail r2
       | [] => false))
  | [] => false

/-- `^[A-Z]{1,2}\d[A-Z\d]?\s?\d[A-Z]{2}$` (UK). -/
def ukZip : List Char → Bool
  | a :: r =>
    isUpperAZ a && (ukAfterLetters r ||
      (match r with
       | b :: r2 => isUpperAZ b && ukAfterLetters r2
       | [] => false))
  | [] => false

/-- `^[0-9]{5}$` (Germany). -/
def germanZip (l : List Char) : Bool := allDigits l && l.length = 5

/-- `^[0-9]{4}$` (Australia). -/
def australiaZip (l : List Char) : Bool := allDigits l && l.length = 4

/-- `^[0-9]{4}\s?[A-Z]{2}$` (Netherlands). -/
def dutchZip (l : List Char) : Bool :=
  (l.length = 6 && allDigits (l.take 4) && (l.drop 4).all isUpperAZ) ||
  (l.length = 7 && allDigits (l.take 4) && ((l.get? 4).any isSpaceB) && (l.drop 5).all isUpperAZ)

/-- `^[0-9]{3}\s?[0-9]{2}$` (Nordic). -/
def nordicZip (l : List Char) : Bool :=
  (allDigits l && l.length = 5) ||
  (l.length = 6 && allDigits (l.take 3) && ((l.get? 3).any isSpaceB) && allDigits (l.drop 4))

/-- `^\d{3}-?\d{4}$` (Japan). -/
def japanZip (l : List Char) : Bool :=
  (allDigits l && l.length = 7) ||
  (l.length = 8 && allDigits (l.take 3) && l.get? 3 = some '-' && allDigits (l.drop 4))

/-- `^\d{5}-?\d{3}$` (Brazil). -/
def brazilZip (l : List Char) : Bool :=
  (allDigits l && l.length = 8) ||
  (l.length = 9 && allDigits (l.take 5) && l.get? 5 = some '-' && allDigits (l.drop 6))

/-- `^[0-9]{6}$` (the India/China entry). -/
def sixDigitZip (l : List Char) : Bool := allDigits l && l.length = 6

/-- `^[A-Z]{2,4}\s?[0-9]{3,5}$`: the letter block and the digit block are
forced to the maximal runs, so the bounded counts can be checked on them. -/
def lettersDigitsZip (l : List Char) : Bool :=
  let letters := l.takeWhile isUpperAZ
  let rest := l.dropWhile isUpperAZ
  let digitsPart := if rest.head? |>.any isSpaceB then rest.tail else rest
  2 ≤ letters.length && letters.length ≤ 4 &&
  allDigits digitsPart && 3 ≤ digitsPart.length && digitsPart.length ≤ 5

/-- `^[0-9]{6,8}$`. -/
def digits6to8Zip (l : List Char) : Bool := allDigits l && 6 ≤ l.length && l.length ≤ 8

/-- `^[A-Z0-9]{5,10}$`. -/
def alnum5to10Zip (l : List Char) : Bool :=
  l.all (fun c => isUpperAZ c || isDigitB c) && 5 ≤ l.length && l.length ≤ 10

/-- The ordered international pattern table.  The Python dict literal uses
the key `r'^[0-9]{6}$'` twice (India, then China); dict-literal semantics
keep the first position with the last value, so the table has a single
six-digit entry described as a Chinese postal code. -/
def international_patterns : List ((List Char → Bool) × String) :=
  [(canadaZip, "Canadian postal code"),
   (ukZip, "UK postal code"),
   (germanZip, "German postal code (5 digits)"),
   (australiaZip, "Australian postal code"),
   (dutchZip, "Dutch postal code"),
   (nordicZip, "Nordic postal code"),
   (japanZip, "Japanese postal code"),
   (brazilZip, "Brazilian postal code"),
   (sixDigitZip, "Chinese postal code"),
   (lettersDigitsZip, "International postal code (letters + numbers)"),
   (digits6to8Zip, "International postal code (6-8 digits)"),
   (alnum5to10Zip, "International postal code (alphanumeric)")]

structure ZipAnalysis where
  ztype : String
  reason : String
deriving Repr, DecidableEq

/-- `_analyze_zip_code`: empty guard, the three US patterns on the
stripped input, then the international table on the upper-cased stripped
input, else invalid. -/
def _analyze_zip_code (zip_code : String) : ZipAnalysis :=
  if zip_code = "" then ⟨"invalid", "Empty ZIP code"⟩
  else
    let zs := (pyStrip zip_code).data
    if usZip5 zs || usZip9 zs || usZip5Dash4 zs then ⟨"us", "US ZIP code format"⟩
    else
      let zu := (pyUpper (pyStrip zip_code)).data
      match international_patterns.find? (fun pd => pd.1 zu) with
      | some pd => ⟨"international", pd.2⟩
      | none => ⟨"invalid", "Unrecognized postal code format"⟩

/-- `^\d{5}(-\d{4})?$` (the strict US ZIP check of step 4). -/
def usStrictZip (l : List Char) : Bool :=
  (allDigits l && l.length = 5) ||
  (l.length = 10 && allDigits (l.take 5) && l.get? 5 = some '-' && allDigits (l.drop 6))

def allowedCityChar (c : Char) : Bool :=
  isAlphaB c || isSpaceB c || c = '.' || c = '-' || c = '\''

/-- `_validate_us_address_format_enhanced`, returned as its issue list
(the source returns `{'valid': issues == [], 'issues': issues}`). -/
def _validate_us_address_format_enhanced (state_display line1 city zip : String)
    (is_valid_state : Bool) : List String :=
  (if !is_valid_state then
    ["Invalid US state: '" ++ state_display ++ "' (not recognized as state name or code)"]
   else []) ++
  (if !usStrictZip (pyStrip zip).data then ["ZIP code must be 5 digits or ZIP+4 format"]
   else []) ++
  (if (pyStrip line1).length < 3 then ["Street address too short"] else []) ++
  (let c := pyStrip city
   if c.length < 2 then ["City name too short"]
   else if !(c.data.all allowedCityChar) then ["City contains invalid characters"]
   else [])

structure AddressIn where
  line1 : String
  line2 : String
  city : String
  stateCd : String
  zipCd : String
  countryCd : String
deriving Repr, DecidableEq

structure AddrCatResult where
  row_number : Nat
  source_file : String
  category : String
  issues : List String
  line1 : String
  line2 : String
  city : String
  state : String
  zip : String
  country : String
  complete_address : String
  validation_notes : String
  normalized_state : String
  state_normalization_applied : Bool
deriving Repr, DecidableEq

/-- `', '.join(address_parts)` over the non-empty display fields. -/
def joinParts (parts : List String) : String :=
  String.intercalate ", " (parts.filter (fun p => p ≠ ""))

/-- `_categorize_address`: international country short-circuit, missing
required fields, ZIP classification, enhanced US format validation. -/
def _categorize_address (addr : AddressIn) (row_num : Nat) (filename : String) : AddrCatResult :=
  let country := pyUpper addr.countryCd
  let ns := _normalize_state_input addr.stateCd
  let normalized_state := ns.1
  let is_valid_state := ns.2.1
  let original_state := ns.2.2
  let base : AddrCatResult :=
    { row_number := row_num
      source_file := filename
      category := "invalid"
      issues := []
      line1 := addr.line1
      line2 := addr.line2
      city := addr.city
      state := addr.stateCd
      zip := addr.zipCd
      country := country
      complete_address := joinParts [addr.line1, addr.line2, addr.city, addr.stateCd, addr.zipCd]
      validation_notes := ""
      normalized_state := normalized_state
      state_normalization_applied := normalized_state ≠ pyUpper original_state }
  if country ≠ "" && country ≠ "US" && country ≠ "USA" then
    { base with
      category := "international"
      validation_notes := "International address (Country: " ++ country ++ ")" }
  else
    let missing_fields :=
      (if pyStrip addr.line1 = "" then ["street address"] else []) ++
      (if pyStrip addr.city = "" then ["city"] else []) ++
      (if pyStrip addr.stateCd = "" then ["state"] else []) ++
      (if pyStrip addr.zipCd = "" then ["zip code"] else [])
    if missing_fields ≠ [] then
      { base with
        category := "invalid"
        issues := ["Missing: " ++ String.intercalate ", " missing_fields]
        validation_notes :=
          "Invalid - Missing required fields: " ++ String.intercalate ", " missing_fields }
    else
      let za := _analyze_zip_code addr.zipCd
      if za.ztype = "international" then
        { base with
          category := "international"
          validation_notes := "International address - " ++ za.reason }
      else if za.ztype = "invalid" then
        { base with
          category := "invalid"
          issues := [za.reason]
          validation_notes := "Invalid - " ++ za.reason }
      else
        let us_issues := _validate_us_address_format_enhanced addr.stateCd addr.line1
          addr.city addr.zipCd is_valid_state
        if us_issues = [] then
          { base with
            category := "us_valid"
            state := normalized_state
            validation_notes :=
              if base.state_normalization_applied then
                "Valid US address - State normalized from '" ++ original_state ++
                  "' to '" ++ normalized_state ++ "'"
              else "Valid US address - Ready for USPS validation" }
        else
          { base with
            category := "invalid"
            issues := us_issues
            validation_notes := "Invalid - " ++ String.intercalate "; " us_issues }

/-- The category decision of `_categorize_address` on its own, with the
same conditions in the same order (used to reason about the category
independently of the rest of the result record). -/
def categoryOf (addr : AddressIn) : String :=
  if (pyUpper addr.countryCd ≠ "" && pyUpper addr.countryCd ≠ "US" &&
      pyUpper addr.countryCd ≠ "USA" : Bool) then "international"
  else if ((if pyStrip addr.line1 = "" then ["street address"] else []) ++
      (if pyStrip addr.city = "" then ["city"] else []) ++
      (if pyStrip addr.stateCd = "" then ["state"] else []) ++
      (if pyStrip addr.zipCd = "" then ["zip code"] else [])) ≠ [] then "invalid"
  else if (_analyze_zip_code addr.zipCd).ztype = "international" then "international"
  else if (_analyze_zip_code addr.zipCd).ztype = "invalid" then "invalid"
  else if _validate_us_address_format_enhanced addr.stateCd addr.line1 addr.city addr.zipCd
      (_normalize_state_input addr.stateCd).2.1 = [] then "us_valid"
  else "invalid"

/-! ## Specification-side definitions

Restatements of two spec paragraphs in the spec's own vocabulary, to be
compared with the source-derived functions above. -/

/-- Spec 4.3: "found in the first-name dictionary" for the first-name
sub-decision. -/
def specFirstFound (v : NameValidator) (parsed : ParsedName) : Bool :=
  v.dictionary_loaded && v.first_names_set.contains (pyLower parsed.first_name)

/-- Spec 4.3: "found in the surname dictionary" for the last-name
sub-decision. -/
def specLastFound (v : NameValidator) (parsed : ParsedName) : Bool :=
  v.dictionary_loaded && v.surnames_set.contains (pyLower parsed.last_name)

/-- Spec 4.3: the resolved gender is dictionary-sourced (the gender map
knows the parsed first name). -/
def specGenderFound (v : NameValidator) (parsed : ParsedName) : Bool :=
  v.dictionary_loaded && parsed.first_name ≠ "" &&
    (lookupStr v.name_to_gender (pyLower parsed.first_name)).isSome

/-- The confidence-and-method resolver exactly as the spec states it:
totalled trust-tier counters, additive confidence starting at 50, and the
three-way capped method decision. -/
def spec_confidence_resolver (v : NameValidator) (parsed : ParsedName)
    (resolved_gender : String) : Rat × String :=
  let detCount : Nat :=
    (if parsed.first_name ≠ "" && specFirstFound v parsed then 1 else 0) +
    (if parsed.last_name ≠ "" && specLastFound v parsed then 1 else 0) +
    (if resolved_gender ≠ "" && specGenderFound v parsed then 1 else 0)
  let aiCount : Nat :=
    (if parsed.first_name ≠ "" && !specFirstFound v parsed then 1 else 0) +
    (if parsed.last_name ≠ "" && !specLastFound v parsed then 1 else 0) +
    (if resolved_gender ≠ "" && !specGenderFound v parsed then 1 else 0)
  let confidence : Rat := 50 +
    (if parsed.first_name ≠ "" then (if specFirstFound v parsed then 20 else 10) else 0) +
    (if parsed.last_name ≠ "" then (if specLastFound v parsed then 20 else 10) else 0) +
    (if resolved_gender ≠ "" then (if specGenderFound v parsed then 10 else 5) else 0)
  if detCount > aiCount then (min confidence 99, "deterministic")
  else if detCount = aiCount && detCount > 0 then (min confidence 90, "hybrid")
  else (min confidence 80, "ai_fallback")

/-- Spec 4.7 step 4: one ordered pattern table, US entries first, then the
international entries, with the first match deciding type and reason. -/
def spec_zip_table : List ((List Char → Bool) × String × String) :=
  [(usZip5, ("us", "US ZIP code format")),
   (usZip9, ("us", "US ZIP code format")),
   (usZip5Dash4, ("us", "US ZIP code format"))] ++
  international_patterns.map (fun pd => (pd.1, ("international", pd.2)))

/-- The ZIP classifier as the spec states it: scan the single ordered
table, no match means unrecognized. -/
def spec_zip_classify (zip_code : String) : ZipAnalysis :=
  if zip_code = "" then ⟨"invalid", "Empty ZIP code"⟩
  else
    let zu := (pyUpper (pyStrip zip_code)).data
    match spec_zip_table.find? (fun e => e.1 zu) with
    | some e => ⟨e.2.1, e.2.2⟩
    | none => ⟨"invalid", "Unrecognized postal code format"⟩

/-- The prefix set that `_enhanced_parse_name` actually consults: the
dictionary prefix set when dictionaries are loaded and that set is
non-empty, else the fixed fallback set. -/
def active_pfx_set (v : NameValidator) : List String :=
  if v.dictionary_loaded && !v.name_prefixes_set.isEmpty then v.name_prefixes_set
  else ai_prefixes

/-! ## Concrete fixtures for witnesses and counterexamples -/

/-- A validator with no dictionaries loaded (pure heuristic mode). -/
def sampleValidatorNoDict : NameValidator :=
  { dictionary_loaded := false
    first_names_set := []
    surnames_set := []
    business_words_set := []
    company_suffixes_set := []
    name_prefixes_set := []
    name_to_gender := []
    nickname_to_standard := [] }

/-- A validator with small loaded dictionaries. -/
def sampleValidatorDict : NameValidator :=
  { dictionary_loaded := true
    first_names_set := ["john", "mary"]
    surnames_set := ["smith", "jones"]
    business_words_set := ["hospital"]
    company_suffixes_set := ["llc"]
    name_prefixes_set := ["dr", "mr"]
    name_to_gender := [("john", "M"), ("mary", "F")]
    nickname_to_standard := [("bill", "William")] }

/-! ## Character-level lemmas -/

theorem pyUpperC_cases (c : Char) :
    (azPairs.find? (fun p => p.1 = c) = none ∧ pyUpperC c = c) ∨
    (∃ pr, pr ∈ azPairs ∧ pr.1 = c ∧ pyUpperC c = pr.2) := by
  cases h : azPairs.find? (fun p => p.1 = c) with
  | none => exact Or.inl ⟨rfl, by simp [pyUpperC, h]⟩
  | some pr =>
    refine Or.inr ⟨pr, List.mem_of_find?_eq_some h, ?_, by simp [pyUpperC, h]⟩
    simpa using List.find?_some h

theorem pyLowerC_cases (c : Char) :
    (azPairs.find? (fun p => p.2 = c) = none ∧ pyLowerC c = c) ∨
    (∃ pr, pr ∈ azPairs ∧ pr.2 = c ∧ pyLowerC c = pr.1) := by
  cases h : azPairs.find? (fun p => p.2 = c) with
  | none => exact Or.inl ⟨rfl, by simp [pyLowerC, h]⟩
  | some pr =>
    refine Or.inr ⟨pr, List.mem_of_find?_eq_some h, ?_, by simp [pyLowerC, h]⟩
    simpa using List.find?_some h

theorem isSpaceB_pyUpperC (c : Char) : isSpaceB (pyUpperC c) = isSpaceB c := by
  rcases pyUpperC_cases c with ⟨_, h⟩ | ⟨pr, hmem, hc, h⟩
  · rw [h]
  · rw [h, ← hc]
    exact (by decide : ∀ p ∈ azPairs, isSpaceB p.2 = isSpaceB p.1) pr hmem

theorem isDigitB_pyUpperC (c : Char) : isDigitB (pyUpperC c) = isDigitB c := by
  rcases pyUpperC_cases c with ⟨_, h⟩ | ⟨pr, hmem, hc, h⟩
  · rw [h]
  · rw [h, ← hc]
    exact (by decide : ∀ p ∈ azPairs, isDigitB p.2 = isDigitB p.1) pr hmem

theorem pyLowerC_pyUpperC (c : Char) : pyLowerC (pyUpperC c) = pyLowerC c := by
  rcases pyUpperC_cases c with ⟨_, h⟩ | ⟨pr, hmem, hc, h⟩
  · rw [h]
  · rw [h, ← hc]
    exact (by decide : ∀ p ∈ azPairs, pyLowerC p.2 = pyLowerC p.1) pr hmem

theorem pyUpperC_pyUpperC (c : Char) : pyUpperC (pyUpperC c) = pyUpperC c := by
  rcases pyUpperC_cases c with ⟨_, h⟩ | ⟨pr, hmem, hc, h⟩
  · rw [h]; exact h
  · rw [h]
    exact (by decide : ∀ p ∈ azPairs, pyUpperC p.2 = p.2) pr hmem

theorem eq_dash_pyUpperC (c : Char) : (pyUpperC c = '-') = (c = '-') := by
  rcases pyUpperC_cases c with ⟨_, h⟩ | ⟨pr, hmem, hc, h⟩
  · rw [h]
  · rw [h, ← hc]
    exact (by decide : ∀ p ∈ azPairs, (p.2 = '-') = (p.1 = '-')) pr hmem

theorem isSpaceB_pyLowerC (c : Char) : isSpaceB (pyLowerC c) = isSpaceB c := by
  rcases pyLowerC_cases c with ⟨_, h⟩ | ⟨pr, hmem, hc, h⟩
  · rw [h]
  · rw [h, ← hc]
    exact (by decide : ∀ p ∈ azPairs, isSpaceB p.1 = isSpaceB p.2) pr hmem

theorem isWordCharB_pyLowerC (c : Char) : isWordCharB (pyLowerC c) = isWordCharB c := by
  rcases pyLowerC_cases c with ⟨_, h⟩ | ⟨pr, hmem, hc, h⟩
  · rw [h]
  · rw [h, ← hc]
    exact (by decide : ∀ p ∈ azPairs, isWordCharB p.1 = isWordCharB p.2) pr hmem

theorem eq_dot_pyLowerC (c : Char) : (pyLowerC c = '.') = (c = '.') := by
  rcases pyLowerC_cases c with ⟨_, h⟩ | ⟨pr, hmem, hc, h⟩
  · rw [h]
  · rw [h, ← hc]
    exact (by decide : ∀ p ∈ azPairs, (p.1 = '.') = (p.2 = '.')) pr hmem

theorem word_not_space {c : Char} (h : isWordCharB c = true) : isSpaceB c = false := by
  cases hs : isSpaceB c
  · rfl
  · exfalso
    have hs' : c = ' ' ∨ c = '\t' ∨ c = '\n' ∨ c = '\r' ∨ c = '\x0b' ∨ c = '\x0c' := by
      simpa [isSpaceB, or_assoc] using hs
    rcases hs' with rfl | rfl | rfl | rfl | rfl | rfl <;> exact absurd h (by decide)

theorem word_not_dot {c : Char} (h : isWordCharB c = true) : (c = '.') = False := by
  simp only [eq_iff_iff, iff_false]
  intro hc
  subst hc
  exact absurd h (by decide)

/-! ## List and string lemmas -/

theorem takeWhile_append_all {α} {p : α → Bool} {w r : List α} (h : ∀ a ∈ w, p a = true) :
    (w ++ r).takeWhile p = w ++ r.takeWhile p := by
  induction w with
  | nil => simp
  | cons a t ih =>
    have ha := h a (List.mem_cons_self a t)
    simp only [List.cons_append, List.takeWhile_cons, ha, if_true]
    rw [ih (fun x hx => h x (List.mem_cons_of_mem a hx))]

theorem dropWhile_append_all {α} {p : α → Bool} {w r : List α} (h : ∀ a ∈ w, p a = true) :
    (w ++ r).dropWhile p = r.dropWhile p := by
  induction w with
  | nil => simp
  | cons a t ih =>
    have ha := h a (List.mem_cons_self a t)
    simp only [List.cons_append, List.dropWhile_cons, ha, if_true]
    exact ih (fun x hx => h x (List.mem_cons_of_mem a hx))

theorem dropWhile_all_false {α} {p : α → Bool} {w : List α} (h : ∀ a ∈ w, p a = false) :
    w.dropWhile p = w := by
  cases w with
  | nil => rfl
  | cons a t =>
    have := h a (List.mem_cons_self a t)
    simp [List.dropWhile_cons, this]

theorem dropWhile_map_comm {f : Char → Char} {p : Char → Bool} (hf : ∀ c, p (f c) = p c)
    (l : List Char) : (l.map f).dropWhile p = (l.dropWhile p).map f := by
  induction l with
  | nil => rfl
  | cons a t ih =>
    simp only [List.map_cons, List.dropWhile_cons, hf a]
    cases h : p a <;> simp [ih]

theorem pyStripList_eq (l : List Char) :
    pyStripList l = List.rdropWhile isSpaceB (l.dropWhile isSpaceB) := rfl

theorem pyStripList_map_comm {f : Char → Char} (hf : ∀ c, isSpaceB (f c) = isSpaceB c)
    (l : List Char) : pyStripList (l.map f) = (pyStripList l).map f := by
  unfold pyStripList
  rw [dropWhile_map_comm hf, ← List.map_reverse, dropWhile_map_comm hf, ← List.map_reverse]

theorem dropWhile_head_not {α} (p : α → Bool) (l : List α) {a : α} {t : List α}
    (h : l.dropWhile p = a :: t) : p a = false := by
  induction l with
  | nil => simp at h
  | cons b l ih =>
    rw [List.dropWhile_cons] at h
    by_cases hb : p b = true
    · rw [if_pos hb] at h
      exact ih h
    · rw [if_neg hb] at h
      have hba : b = a := (List.cons.injEq b l a t ▸ h).1
      rw [← hba]
      exact Bool.not_eq_true (p b) ▸ hb

theorem pyStripList_idem (l : List Char) : pyStripList (pyStripList l) = pyStripList l := by
  rw [pyStripList_eq, pyStripList_eq]
  have h1 : (List.rdropWhile isSpaceB (l.dropWhile isSpaceB)).dropWhile isSpaceB =
      List.rdropWhile isSpaceB (l.dropWhile isSpaceB) := by
    cases hA : List.rdropWhile isSpaceB (l.dropWhile isSpaceB) with
    | nil => rfl
    | cons a t =>
      have hpre := List.rdropWhile_prefix isSpaceB (l.dropWhile isSpaceB)
      rw [hA] at hpre
      rcases hpre with ⟨tail, htail⟩
      have hEq : l.dropWhile isSpaceB = a :: (t ++ tail) := by
        rw [← htail]; simp
      have hnotsp : isSpaceB a = false := dropWhile_head_not isSpaceB l hEq
      simp [List.dropWhile_cons, hnotsp]
  rw [h1, List.rdropWhile_idempotent]

theorem pyStrip_pyStrip (s : String) : pyStrip (pyStrip s) = pyStrip s :=
  congrArg String.mk (pyStripList_idem s.data)

theorem pyStrip_pyUpper (s : String) : pyStrip (pyUpper s) = pyUpper (pyStrip s) :=
  congrArg String.mk (pyStripList_map_comm isSpaceB_pyUpperC s.data)

theorem pyLower_pyUpper (s : String) : pyLower (pyUpper s) = pyLower s := by
  unfold pyLower pyUpper
  refine congrArg String.mk ?_
  simp only [List.map_map]
  exact List.map_congr_left (fun c _ => pyLowerC_pyUpperC c)

theorem pyUpper_pyUpper (s : String) : pyUpper (pyUpper s) = pyUpper s := by
  unfold pyUpper
  refine congrArg String.mk ?_
  simp only [List.map_map]
  exact List.map_congr_left (fun c _ => pyUpperC_pyUpperC c)

theorem pyUpper_eq_empty {s : String} : (pyUpper s = "") ↔ s = "" := by
  constructor
  · intro h
    have h1 : s.data.map pyUpperC = [] := congrArg String.data h
    have h2 : s.data = [] := by simpa using h1
    exact String.ext h2
  · rintro rfl; rfl

theorem pyLower_length (s : String) : (pyLower s).length = s.length := by
  show (s.data.map pyLowerC).length = s.data.length
  exact List.length_map _ _

theorem pyUpper_length (s : String) : (pyUpper s).length = s.length := by
  show (s.data.map pyUpperC).length = s.data.length
  exact List.length_map _ _

/-! ## Confidence bound lemmas -/

theorem ai_org_conf_bounds (s : String) :
    0 ≤ (_ai_organization_detection s).2.1 ∧ (_ai_organization_detection s).2.1 ≤ 80 := by
  unfold _ai_organization_detection
  dsimp only
  constructor
  · exact le_min (by norm_num) (by positivity)
  · exact min_le_left _ _

theorem determine_org_conf_bounds (v : NameValidator) (fn hint : String) :
    0 ≤ (_determine_organization v fn hint).2.1 ∧
    (_determine_organization v fn hint).2.1 ≤ 99 := by
  unfold _determine_organization
  constructor <;>
  · dsimp only
    split_ifs <;>
      solve
        | norm_num
        | exact (ai_org_conf_bounds _).1
        | exact le_trans (ai_org_conf_bounds _).2 (by norm_num)

theorem calc_conf_bounds (v : NameValidator) (parsed : ParsedName) (g : String) :
    0 ≤ (_calculate_confidence v parsed g).1 ∧ (_calculate_confidence v parsed g).1 ≤ 99 := by
  unfold _calculate_confidence
  by_cases h1 : parsed.first_name = "" <;>
  by_cases h2 : parsed.last_name = "" <;>
  by_cases h3 : g = "" <;>
  cases hf : v.dictionary_loaded && v.first_names_set.contains (pyLower parsed.first_name) <;>
  cases hl : v.dictionary_loaded && v.surnames_set.contains (pyLower parsed.last_name) <;>
  cases hg : (v.dictionary_loaded && parsed.first_name ≠ "" &&
      (lookupStr v.name_to_gender (pyLower parsed.first_name)).isSome : Bool) <;>
  simp [h1, h2, h3, hf, hl, hg, min_def] <;> norm_num

theorem ind_parse_conf_bounds (v : NameValidator) (r : NameRecordIn) :
    0 ≤ (individual_parse_result v r).confidenceScore ∧
    (individual_parse_result v r).confidenceScore ≤ 99 := by
  unfold individual_parse_result
  dsimp only
  exact calc_conf_bounds _ _ _

/-! ## Claim theorems -/

/-- C1: for every parsed individual name record, `_calculate_confidence`
computes its result exactly as the spec's resolver paragraph states it:
base confidence 50; a present firstName adds 20 on a first-name-dictionary
hit (one deterministic sub-decision) and otherwise 10 (one heuristic
sub-decision); the same rule for lastName against the surname dictionary;
a non-empty resolved gender adds 10 when dictionary-sourced
(deterministic) and 5 otherwise (heuristic); the final method is
`deterministic` capped at 99 when the deterministic count exceeds the
heuristic count, `hybrid` capped at 90 when they are equal and positive,
and `ai_fallback` capped at 80 otherwise. -/
theorem C1_confidence_resolver_as_specified (v : NameValidator) (parsed : ParsedName)
    (g : String) : _calculate_confidence v parsed g = spec_confidence_resolver v parsed g := by
  unfold _calculate_confidence spec_confidence_resolver specFirstFound specLastFound specGenderFound
  by_cases h1 : parsed.first_name = "" <;>
  by_cases h2 : parsed.last_name = "" <;>
  by_cases h3 : g = "" <;>
  cases hf : v.dictionary_loaded && v.first_names_set.contains (pyLower parsed.first_name) <;>
  cases hl : v.dictionary_loaded && v.surnames_set.contains (pyLower parsed.last_name) <;>
  cases hg : (v.dictionary_loaded && parsed.first_name ≠ "" &&
      (lookupStr v.name_to_gender (pyLower parsed.first_name)).isSome : Bool) <;>
  simp [h1, h2, h3, hf, hl, hg]

/-- C2: with dictionaries loaded, for any parsed record with non-empty
firstName and lastName: if both names are found in their dictionaries the
resulting validation method is `deterministic`; if neither is found it is
never `deterministic`, whatever the gender sub-decision contributes. -/
theorem C2_method_monotonicity (v : NameValidator) (parsed : ParsedName) (g : String)
    (hd : v.dictionary_loaded = true) (hf : parsed.first_name ≠ "")
    (hl : parsed.last_name ≠ "") :
    (v.first_names_set.contains (pyLower parsed.first_name) = true →
      v.surnames_set.contains (pyLower parsed.last_name) = true →
      (_calculate_confidence v parsed g).2 = "deterministic") ∧
    (v.first_names_set.contains (pyLower parsed.first_name) = false →
      v.surnames_set.contains (pyLower parsed.last_name) = false →
      (_calculate_confidence v parsed g).2 ≠ "deterministic") := by
  constructor
  · intro hcf hcl
    have hcf' : pyLower parsed.first_name ∈ v.first_names_set := by simpa using hcf
    have hcl' : pyLower parsed.last_name ∈ v.surnames_set := by simpa using hcl
    unfold _calculate_confidence
    by_cases h3 : g = "" <;>
    cases hg : (v.dictionary_loaded && parsed.first_name ≠ "" &&
        (lookupStr v.name_to_gender (pyLower parsed.first_name)).isSome : Bool) <;>
    simp [hd, hf, hl, hcf', hcl', h3, hg]
  · intro hcf hcl
    have hcf' : pyLower parsed.first_name ∉ v.first_names_set := by simpa using hcf
    have hcl' : pyLower parsed.last_name ∉ v.surnames_set := by simpa using hcl
    unfold _calculate_confidence
    by_cases h3 : g = "" <;>
    cases hg : (v.dictionary_loaded && parsed.first_name ≠ "" &&
        (lookupStr v.name_to_gender (pyLower parsed.first_name)).isSome : Bool) <;>
    simp [hd, hf, hl, hcf', hcl', h3, hg]

/-- Witness for C2 at a concrete dictionary-loaded validator and a record
whose first and last name are both dictionary hits. -/
theorem C2_method_monotonicity_witness :
    (_calculate_confidence sampleValidatorDict ⟨"", "John", "", "Smith", ""⟩ "M").2 =
      "deterministic" :=
  (C2_method_monotonicity sampleValidatorDict ⟨"", "John", "", "Smith", ""⟩ "M"
    (by decide) (by decide) (by decide)).1 (by decide) (by decide)

/-- C3: on every branch of the name validation orchestrator (organization
short-circuit, parse, no-parse, and the exception branch), the emitted
confidence score lies in [0, 99.9995] and is never exactly 100. -/
theorem C3_confidence_bound : ∀ (v : NameValidator) (r : NameRecordIn),
    (0 ≤ (validate_name_record v r).confidenceScore ∧
      (validate_name_record v r).confidenceScore ≤ 99.9995 ∧
      (validate_name_record v r).confidenceScore ≠ 100) ∧
    (∀ (res : NameResult) (e : String),
      (validate_name_record_with (.error (res, e))).confidenceScore = 0) := by
  intro v r
  constructor
  · have hb : 0 ≤ (validate_name_record v r).confidenceScore ∧
        (validate_name_record v r).confidenceScore ≤ 99 := by
      show 0 ≤ (validate_name_record_body v r).confidenceScore ∧
          (validate_name_record_body v r).confidenceScore ≤ 99
      unfold validate_name_record_body
      dsimp only
      split_ifs
      · exact determine_org_conf_bounds v (pyStrip r.fullName) (pyUpper (pyStrip r.partyTypeCd))
      · exact ind_parse_conf_bounds v r
      · exact ⟨by show (0 : Rat) ≤ 80; norm_num, by show (80 : Rat) ≤ 99; norm_num⟩
    refine ⟨hb.1, by linarith [hb.2], by intro h; linarith [hb.2]⟩
  · intro res e
    rfl

/-- C5: a per-record exception is caught by the orchestrator and mapped to
parseStatus `Error`, confidence 0, method `error`, with the exception
message contained in the errorMessage; and the batch loop of
`validate_names` produces exactly one result per input record in order,
each depending only on its own record, so one failing record never aborts
or omits the others. -/
theorem C5_failure_isolation :
    (∀ (res : NameResult) (e : String),
      (validate_name_record_with (.error (res, e))).parseStatus = "Error" ∧
      (validate_name_record_with (.error (res, e))).confidenceScore = 0 ∧
      (validate_name_record_with (.error (res, e))).validationMethod = "error" ∧
      ∃ pre post, (validate_name_record_with (.error (res, e))).errorMessage =
        pre ++ e ++ post) ∧
    (∀ (process : NameRecordIn → Except String NameResult) (records : List NameRecordIn),
      validate_names_results process records = records.map (processOne process)) := by
  constructor
  · intro res e
    refine ⟨rfl, rfl, rfl, "Processing error: ", "", ?_⟩
    show "Processing error: " ++ e = "Processing error: " ++ e ++ ""
    simp
  · intro process records
    induction records with
    | nil => rfl
    | cons r rs ih => simp [validate_names_results, ih]

/-- C4 counterexample: on the empty fullName with explicit hint `O`, the
classifier returns the `empty_name` result, not the explicit-hint result —
the emptiness guard runs before the hint rule, so the claim fails for the
empty string. -/
theorem C4_counterexample :
    _determine_organization sampleValidatorDict "" "O" = (false, 0, "empty_name") ∧
    _determine_organization sampleValidatorDict "" "O" ≠ (true, 99, "explicit_org") := by
  have h0 : _determine_organization sampleValidatorDict "" "O" = (false, 0, "empty_name") := rfl
  refine ⟨h0, ?_⟩
  rw [h0]
  decide

/-- C4 (amended to non-empty fullName): for every non-empty fullName the
explicit hint rule is applied before any dictionary or heuristic rule:
hint `O` yields (organization, 99, `explicit_org`) and hint `I` yields
(individual, 99, `explicit_individual`), for every validator state. -/
theorem C4_explicit_hint_first (v : NameValidator) (full_name hint : String)
    (h : full_name ≠ "") :
    (hint = "O" → _determine_organization v full_name hint = (true, 99, "explicit_org")) ∧
    (hint = "I" → _determine_organization v full_name hint = (false, 99, "explicit_individual")) := by
  unfold _determine_organization
  constructor <;> rintro rfl <;> simp [h]

/-- Witness for C4 at a concrete non-empty organization name. -/
theorem C4_explicit_hint_first_witness :
    _determine_organization sampleValidatorDict "Acme Products" "O" =
      (true, 99, "explicit_org") :=
  (C4_explicit_hint_first sampleValidatorDict "Acme Products" "O" (by decide)).1 rfl

/-- C6: an address whose country code is present and, uppercased, is
neither `US` nor `USA` is categorized `international` regardless of all
other fields — the country check short-circuits the later steps. -/
theorem C6_country_shortcircuit (addr : AddressIn) (row : Nat) (file : String)
    (h1 : pyUpper addr.countryCd ≠ "") (h2 : pyUpper addr.countryCd ≠ "US")
    (h3 : pyUpper addr.countryCd ≠ "USA") :
    (_categorize_address addr row file).category = "international" := by
  unfold _categorize_address
  simp [h1, h2, h3]

/-! ## ZIP pattern lemmas (upper-casing invariance of the US patterns) -/

theorem allDigits_map_upper (l : List Char) : allDigits (l.map pyUpperC) = allDigits l := by
  unfold allDigits
  induction l with
  | nil => rfl
  | cons c t ih => simp only [List.map_cons, List.all_cons, isDigitB_pyUpperC c, ih]

theorem get?_dash_map_upper (l : List Char) (n : Nat) :
    decide ((l.map pyUpperC).get? n = some '-') = decide (l.get? n = some '-') := by
  apply decide_eq_decide.mpr
  rw [List.get?_map]
  cases h : l.get? n with
  | none => simp
  | some c => simp [eq_dash_pyUpperC c]

theorem usZip5_map_upper (l : List Char) : usZip5 (l.map pyUpperC) = usZip5 l := by
  simp [usZip5, allDigits_map_upper]

theorem usZip9_map_upper (l : List Char) : usZip9 (l.map pyUpperC) = usZip9 l := by
  simp [usZip9, allDigits_map_upper]

theorem usZip5Dash4_map_upper (l : List Char) : usZip5Dash4 (l.map pyUpperC) = usZip5Dash4 l := by
  unfold usZip5Dash4
  rw [allDigits_map_upper, List.length_map, ← List.map_take, ← List.map_drop,
    allDigits_map_upper, allDigits_map_upper, get?_dash_map_upper]

theorem analyze_eq_spec (z : String) : _analyze_zip_code z = spec_zip_classify z := by
  unfold _analyze_zip_code spec_zip_classify
  by_cases hz : z = ""
  · simp [hz]
  · rw [if_neg hz, if_neg hz]
    dsimp only
    have hdata : (pyUpper (pyStrip z)).data = (pyStrip z).data.map pyUpperC := rfl
    have h5 : usZip5 ((pyUpper (pyStrip z)).data) = usZip5 (pyStrip z).data := by
      rw [hdata, usZip5_map_upper]
    have h9 : usZip9 ((pyUpper (pyStrip z)).data) = usZip9 (pyStrip z).data := by
      rw [hdata, usZip9_map_upper]
    have h54 : usZip5Dash4 ((pyUpper (pyStrip z)).data) = usZip5Dash4 (pyStrip z).data := by
      rw [hdata, usZip5Dash4_map_upper]
    have hcomp : ((fun (e : (List Char → Bool) × String × String) =>
        e.1 ((pyUpper (pyStrip z)).data)) ∘
        (fun (pd : (List Char → Bool) × String) => (pd.1, ("international", pd.2)))) =
        (fun (pd : (List Char → Bool) × String) => pd.1 ((pyUpper (pyStrip z)).data)) := rfl
    rw [spec_zip_table]
    cases ha : usZip5 (pyStrip z).data with
    | true =>
      rw [List.find?_append, List.find?_cons_of_pos _ (by simp [h5, ha])]
      simp [ha]
    | false =>
    cases hb : usZip9 (pyStrip z).data with
    | true =>
      rw [List.find?_append, List.find?_cons_of_neg _ (by simp [h5, ha]),
        List.find?_cons_of_pos _ (by simp [h9, hb])]
      simp [ha, hb]
    | false =>
    cases hc : usZip5Dash4 (pyStrip z).data with
    | true =>
      rw [List.find?_append, List.find?_cons_of_neg _ (by simp [h5, ha]),
        List.find?_cons_of_neg _ (by simp [h9, hb]),
        List.find?_cons_of_pos _ (by simp [h54, hc])]
      simp [ha, hb, hc]
    | false =>
      rw [List.find?_append, List.find?_cons_of_neg _ (by simp [h5, ha]),
        List.find?_cons_of_neg _ (by simp [h9, hb]),
        List.find?_cons_of_neg _ (by simp [h54, hc]),
        List.find?_nil, Option.none_or, List.find?_map, hcomp]
      cases hf : international_patterns.find?
          (fun pd => pd.1 ((pyUpper (pyStrip z)).data)) with
      | none => simp [hf]
      | some pd => simp [hf]


/-- Witness for C6: a Toronto address with country `CA` is international. -/
theorem C6_country_shortcircuit_witness :
    (_categorize_address ⟨"1 Front St", "", "Toronto", "ON", "M5V 3A8", "CA"⟩ 1
      "in.csv").category = "international" :=
  C6_country_shortcircuit ⟨"1 Front St", "", "Toronto", "ON", "M5V 3A8", "CA"⟩ 1 "in.csv"
    (by decide) (by decide) (by decide)

/-- C7: the ZIP classifier is the ordered pattern table the spec describes:
a bare 5-digit zip is always `us` (the US patterns run before the German
5-digit international pattern); the classifier agrees everywhere with the
single ordered table (US patterns first, then the fixed international list,
first match winning, unmatched means unrecognized); the 11-digit string
"99999999999" is `invalid` with the unrecognized-format reason; and the
categorizer reports such a zip as category `invalid` carrying that reason
in its issues list. -/
theorem C7_zip_pattern_table :
    (∀ z : String, allDigits (pyStrip z).data = true → (pyStrip z).data.length = 5 →
      _analyze_zip_code z = ⟨"us", "US ZIP code format"⟩) ∧
    (∀ z : String, _analyze_zip_code z = spec_zip_classify z) ∧
    _analyze_zip_code "99999999999" = ⟨"invalid", "Unrecognized postal code format"⟩ ∧
    (∀ (addr : AddressIn) (row : Nat) (file : String),
      (pyUpper addr.countryCd = "" ∨ pyUpper addr.countryCd = "US" ∨
        pyUpper addr.countryCd = "USA") →
      pyStrip addr.line1 ≠ "" → pyStrip addr.city ≠ "" → pyStrip addr.stateCd ≠ "" →
      pyStrip addr.zipCd ≠ "" →
      (_analyze_zip_code addr.zipCd).ztype = "invalid" →
      (_categorize_address addr row file).category = "invalid" ∧
      (_categorize_address addr row file).issues = [(_analyze_zip_code addr.zipCd).reason]) := by
  refine ⟨?_, analyze_eq_spec, by decide, ?_⟩
  · intro z hd h5
    have hz : z ≠ "" := by
      intro h
      subst h
      exact absurd h5 (by decide)
    unfold _analyze_zip_code
    rw [if_neg hz]
    dsimp only
    have hus : usZip5 (pyStrip z).data = true := by simp [usZip5, hd, h5]
    rw [hus]
    simp
  · intro addr row file hc h1 h2 h3 h4 hz
    have hcond : ((pyUpper addr.countryCd ≠ "" && pyUpper addr.countryCd ≠ "US" &&
        pyUpper addr.countryCd ≠ "USA") : Bool) = false := by
      rcases hc with h | h | h <;> simp [h]
    unfold _categorize_address
    dsimp only
    simp only [hcond, Bool.false_eq_true, if_false, h1, h2, h3, h4, hz]
    simp

/-- Witness for C7: a bare 5-digit zip classifies `us`, and a record with
the 11-digit zip is categorized `invalid`. -/
theorem C7_zip_pattern_table_witness :
    _analyze_zip_code "12345" = ⟨"us", "US ZIP code format"⟩ ∧
    (_categorize_address ⟨"123 Main St", "", "Springfield", "IL", "99999999999", "US"⟩ 1
      "a.csv").category = "invalid" :=
  ⟨C7_zip_pattern_table.1 "12345" (by decide) (by decide),
   (C7_zip_pattern_table.2.2.2 ⟨"123 Main St", "", "Springfield", "IL", "99999999999", "US"⟩
     1 "a.csv" (Or.inr (Or.inl (by decide))) (by decide) (by decide) (by decide) (by decide)
     (by decide)).1⟩


theorem clean_map_id {l : List Char}
    (h : ∀ c ∈ l, isWordCharB c = true ∨ isSpaceB c = true) :
    l.map (fun c => if isWordCharB c || isSpaceB c || c = '.' then c else ' ') = l := by
  have h' : ∀ c ∈ l, (fun c => if isWordCharB c || isSpaceB c || c = '.' then c else ' ') c =
      id c := by
    intro c hc
    rcases h c hc with hw | hs
    · simp [hw]
    · simp [hs]
  rw [List.map_congr_left h', List.map_id]

theorem pySplitWsGo_word {w : List Char} (hnos : ∀ c ∈ w, isSpaceB c = false) :
    ∀ (acc rest : List Char), pySplitWsGo acc (w ++ rest) = pySplitWsGo (w.reverse ++ acc) rest := by
  induction w with
  | nil => intro acc rest; simp
  | cons c t ih =>
    intro acc rest
    have hc := hnos c (List.mem_cons_self c t)
    have iht := ih (fun d hd => hnos d (List.mem_cons_of_mem c hd))
    rw [List.cons_append]
    simp only [pySplitWsGo, hc, Bool.false_eq_true, if_false]
    rw [iht (c :: acc) rest, List.reverse_cons, List.append_assoc, List.singleton_append]

theorem pySplitWs_token_sep {w rest : List Char} (hw : w ≠ [])
    (hnos : ∀ c ∈ w, isSpaceB c = false) :
    pySplitWs (w ++ ' ' :: rest) = w :: pySplitWs rest := by
  unfold pySplitWs
  rw [pySplitWsGo_word hnos [] (' ' :: rest), List.append_nil]
  simp only [pySplitWsGo]
  have hsp : isSpaceB ' ' = true := rfl
  have hne : w.reverse.isEmpty = false := by
    simp [List.isEmpty_iff, hw]
  rw [hsp, if_pos rfl, hne]
  simp [List.reverse_reverse]

theorem pySplitWs_single {w : List Char} (hw : w ≠ [])
    (hnos : ∀ c ∈ w, isSpaceB c = false) : pySplitWs w = [w] := by
  unfold pySplitWs
  have h := pySplitWsGo_word hnos [] []
  rw [List.append_nil, List.append_nil] at h
  rw [h]
  simp only [pySplitWsGo]
  have hne : w.reverse.isEmpty = false := by
    simp [List.isEmpty_iff, hw]
  rw [hne]
  simp

theorem asString_data (x : String) : List.asString x.data = x := String.ext rfl

theorem data_ne_nil {x : String} (h : x ≠ "") : x.data ≠ [] := by
  intro hd
  exact h (String.ext hd)

theorem pyRstripDot_id {t : String} (h : ∀ c ∈ t.data, isWordCharB c = true) :
    pyRstripDot t = t := by
  unfold pyRstripDot
  have hrev : t.data.reverse.dropWhile (fun c => c = '.') = t.data.reverse := by
    apply dropWhile_all_false
    intro c hc
    simp [word_not_dot (h c (List.mem_reverse.mp hc))]
  rw [hrev, List.reverse_reverse]

theorem pyLower_word {t : String} (h : ∀ c ∈ t.data, isWordCharB c = true) :
    ∀ c ∈ (pyLower t).data, isWordCharB c = true := by
  intro c hc
  rcases List.mem_map.mp hc with ⟨d, hd, rfl⟩
  rw [isWordCharB_pyLowerC]
  exact h d hd

theorem pyStripList_cons_ne_nil {c : Char} {rest : List Char} (hc : isSpaceB c = false) :
    pyStripList (c :: rest) ≠ [] := by
  rw [pyStripList_eq, List.dropWhile_cons_of_neg (by simp [hc])]
  intro h
  have := List.rdropWhile_eq_nil_iff.mp h c (List.mem_cons_self c rest)
  rw [hc] at this
  exact Bool.false_ne_true this


/-- C9: parser round-trip on the canonical five-token form: for word-only
tokens joined by single spaces, where the prefix token (lowercased) is in
the active prefix set, the suffix token (lowercased) is in the fixed
suffix fallback set, and the inner tokens are neither, the parser returns
exactly the five components as prefix, firstName, middleName, lastName
and suffix. -/
theorem C9_parser_roundtrip (v : NameValidator) (p f m l s : String)
    (hp : p ≠ "") (hf : f ≠ "") (hm : m ≠ "") (hl : l ≠ "") (hs : s ≠ "")
    (hpw : ∀ c ∈ p.data, isWordCharB c = true)
    (hfw : ∀ c ∈ f.data, isWordCharB c = true)
    (hmw : ∀ c ∈ m.data, isWordCharB c = true)
    (hlw : ∀ c ∈ l.data, isWordCharB c = true)
    (hsw : ∀ c ∈ s.data, isWordCharB c = true)
    (hpin : (active_pfx_set v).contains (pyLower p) = true)
    (hsin : ai_suffixes.contains (pyLower s) = true)
    (hfree : ((active_pfx_set v).contains (pyLower f) || ai_suffixes.contains (pyLower f) ||
      (active_pfx_set v).contains (pyLower m) || ai_suffixes.contains (pyLower m) ||
      (active_pfx_set v).contains (pyLower l) || ai_suffixes.contains (pyLower l)) = false) :
    _enhanced_parse_name v (p ++ " " ++ f ++ " " ++ m ++ " " ++ l ++ " " ++ s) =
      ⟨p, f, m, l, s⟩ := by
  have hspd : (" " : String).data = [' '] := rfl
  have hdata : (p ++ " " ++ f ++ " " ++ m ++ " " ++ l ++ " " ++ s).data =
      p.data ++ ' ' :: (f.data ++ ' ' :: (m.data ++ ' ' :: (l.data ++ ' ' :: s.data))) := by
    simp [String.data_append, hspd]
  obtain ⟨p0, pt, hpdata⟩ : ∃ p0 pt, p.data = p0 :: pt := by
    cases hpd : p.data with
    | nil => exact absurd hpd (data_ne_nil hp)
    | cons a b => exact ⟨a, b, rfl⟩
  have hp0w : isWordCharB p0 = true := hpw p0 (by rw [hpdata]; exact List.mem_cons_self _ _)
  have hstrip : pyStrip (p ++ " " ++ f ++ " " ++ m ++ " " ++ l ++ " " ++ s) ≠ "" := by
    intro hcontra
    have hnil : pyStripList ((p ++ " " ++ f ++ " " ++ m ++ " " ++ l ++ " " ++ s).data) = [] :=
      congrArg String.data hcontra
    rw [hdata, hpdata, List.cons_append] at hnil
    exact pyStripList_cons_ne_nil (word_not_space hp0w) hnil
  have hallwords : ∀ c ∈ (p ++ " " ++ f ++ " " ++ m ++ " " ++ l ++ " " ++ s).data,
      isWordCharB c = true ∨ isSpaceB c = true := by
    rw [hdata]
    intro c hc
    rcases List.mem_append.mp hc with hcp | hc
    · exact Or.inl (hpw c hcp)
    rcases List.mem_cons.mp hc with rfl | hc
    · exact Or.inr rfl
    rcases List.mem_append.mp hc with hcf | hc
    · exact Or.inl (hfw c hcf)
    rcases List.mem_cons.mp hc with rfl | hc
    · exact Or.inr rfl
    rcases List.mem_append.mp hc with hcm | hc
    · exact Or.inl (hmw c hcm)
    rcases List.mem_cons.mp hc with rfl | hc
    · exact Or.inr rfl
    rcases List.mem_append.mp hc with hcl | hc
    · exact Or.inl (hlw c hcl)
    rcases List.mem_cons.mp hc with rfl | hc
    · exact Or.inr rfl
    exact Or.inl (hsw c hc)
  have hsplit : pySplitWs ((p ++ " " ++ f ++ " " ++ m ++ " " ++ l ++ " " ++ s).data.map
      (fun c => if isWordCharB c || isSpaceB c || c = '.' then c else ' ')) =
      [p.data, f.data, m.data, l.data, s.data] := by
    rw [clean_map_id hallwords, hdata]
    rw [pySplitWs_token_sep (data_ne_nil hp) (fun c hc => word_not_space (hpw c hc))]
    rw [pySplitWs_token_sep (data_ne_nil hf) (fun c hc => word_not_space (hfw c hc))]
    rw [pySplitWs_token_sep (data_ne_nil hm) (fun c hc => word_not_space (hmw c hc))]
    rw [pySplitWs_token_sep (data_ne_nil hl) (fun c hc => word_not_space (hlw c hc))]
    rw [pySplitWs_single (data_ne_nil hs) (fun c hc => word_not_space (hsw c hc))]
  unfold _enhanced_parse_name
  rw [if_neg hstrip]
  dsimp only
  rw [hsplit]
  simp only [List.map_cons, List.map_nil, asString_data]
  rw [pyRstripDot_id (pyLower_word hpw)]
  have hpin' := hpin
  unfold active_pfx_set at hpin'
  cases hd : (v.dictionary_loaded && !v.name_prefixes_set.isEmpty) with
  | true =>
    rw [hd, if_pos rfl] at hpin'
    simp only [hd, hpin', if_true]
    rw [pyRstripDot_id hpw]
    simp only [List.getLast?_cons_cons, List.getLast?_singleton]
    rw [pyRstripDot_id (pyLower_word hsw), hsin]
    simp only [if_true, pyRstripDot_id hsw, List.dropLast]
    simp [String.intercalate, String.intercalate.go]
  | false =>
    rw [hd] at hpin'
    simp only [Bool.false_eq_true, if_false] at hpin'
    simp only [hd, hpin', Bool.false_eq_true, if_false, if_true]
    rw [pyRstripDot_id hpw]
    simp only [List.getLast?_cons_cons, List.getLast?_singleton]
    rw [pyRstripDot_id (pyLower_word hsw), hsin]
    simp only [if_true, pyRstripDot_id hsw, List.dropLast]
    simp [String.intercalate, String.intercalate.go]



/-- Witness for C9 on the concrete name "Dr John Quincy Smith Jr" with no
dictionaries loaded. -/
theorem C9_parser_roundtrip_witness :
    _enhanced_parse_name sampleValidatorNoDict
        ("Dr" ++ " " ++ "John" ++ " " ++ "Quincy" ++ " " ++ "Smith" ++ " " ++ "Jr") =
      ⟨"Dr", "John", "Quincy", "Smith", "Jr"⟩ :=
  C9_parser_roundtrip sampleValidatorNoDict "Dr" "John" "Quincy" "Smith" "Jr"
    (by decide) (by decide) (by decide) (by decide) (by decide)
    (by decide) (by decide) (by decide) (by decide) (by decide)
    (by decide) (by decide) (by decide)


/-- C10 counterexample: a record classified as an organization (explicit
hint `O`) with an empty parseInd is answered by the organization branch,
not the parse pipeline — so the claim, quantified over every name record,
fails at this record. -/
theorem C10_counterexample :
    pyUpper (pyStrip (NameRecordIn.mk "1" "Acme" "" "O" "").parseInd) = "" ∧
    (validate_name_record sampleValidatorNoDict ⟨"1", "Acme", "", "O", ""⟩).validationMethod =
      "explicit_org" ∧
    validate_name_record sampleValidatorNoDict ⟨"1", "Acme", "", "O", ""⟩ ≠
      individual_parse_result sampleValidatorNoDict ⟨"1", "Acme", "", "O", ""⟩ := by
  refine ⟨rfl, rfl, ?_⟩
  decide

/-- C10 (amended to records the classifier deems individual): a missing or
empty parseInd (after trimming and upper-casing) is treated as `Y` — the
output echoes parseInd `Y` and the record takes the full parse pipeline —
while an explicit value different from `Y` selects the no-parse branch
with fixed confidence 80 and method `no_parse`. -/
theorem C10_parse_indicator_default (v : NameValidator) (r : NameRecordIn)
    (horg : (_determine_organization v (pyStrip r.fullName)
      (pyUpper (pyStrip r.partyTypeCd))).1 = false) :
    (pyUpper (pyStrip r.parseInd) = "" →
      (validate_name_record v r).parseInd = "Y" ∧
      validate_name_record v r = individual_parse_result v r) ∧
    (pyUpper (pyStrip r.parseInd) ≠ "" → pyUpper (pyStrip r.parseInd) ≠ "Y" →
      validate_name_record v r = no_parse_result r ∧
      (validate_name_record v r).confidenceScore = 80 ∧
      (validate_name_record v r).validationMethod = "no_parse") := by
  have hv : validate_name_record v r = validate_name_record_body v r := rfl
  rw [hv]
  unfold validate_name_record_body
  dsimp only
  rw [horg]
  simp only [Bool.false_eq_true, if_false]
  constructor
  · intro he
    have hbase : (base_result r).parseInd = "Y" := by
      unfold base_result
      dsimp only
      rw [he]
      simp
    rw [hbase, if_pos rfl]
    refine ⟨?_, rfl⟩
    unfold individual_parse_result
    dsimp only
    exact hbase
  · intro hne hny
    have hbase : (base_result r).parseInd = pyUpper (pyStrip r.parseInd) := by
      unfold base_result
      dsimp only
      rw [if_neg hne]
    rw [hbase, if_neg hny]
    exact ⟨rfl, rfl, rfl⟩

/-- Witness for C10 at two concrete individual records: one with empty
parseInd (parse pipeline) and one with parseInd `N` (no-parse branch). -/
theorem C10_parse_indicator_default_witness :
    validate_name_record sampleValidatorNoDict ⟨"2", "John Smith", "", "", ""⟩ =
      individual_parse_result sampleValidatorNoDict ⟨"2", "John Smith", "", "", ""⟩ ∧
    (validate_name_record sampleValidatorNoDict ⟨"3", "John Smith", "", "", "N"⟩).validationMethod =
      "no_parse" :=
  ⟨((C10_parse_indicator_default sampleValidatorNoDict ⟨"2", "John Smith", "", "", ""⟩
      (by decide)).1 (by decide)).2,
   (((C10_parse_indicator_default sampleValidatorNoDict ⟨"3", "John Smith", "", "", "N"⟩
      (by decide)).2 (by decide) (by decide)).2).2⟩



theorem categorize_category (addr : AddressIn) (row : Nat) (file : String) :
    (_categorize_address addr row file).category = categoryOf addr := by
  unfold _categorize_address categoryOf
  dsimp only
  simp only [apply_ite AddrCatResult.category]

theorem categorize_normalized_state (addr : AddressIn) (row : Nat) (file : String) :
    (_categorize_address addr row file).normalized_state =
      (_normalize_state_input addr.stateCd).1 := by
  unfold _categorize_address
  dsimp only
  simp only [apply_ite AddrCatResult.normalized_state, ite_self]

theorem lookupStr_mem {m : List (String × String)} {k val : String}
    (h : lookupStr m k = some val) : ∃ pr ∈ m, pr.2 = val := by
  unfold lookupStr at h
  cases hf : m.find? (fun p => p.1 = k) with
  | none => rw [hf] at h; exact absurd h (by simp)
  | some pr =>
    rw [hf] at h
    exact ⟨pr, List.mem_of_find?_eq_some hf, by simpa using h⟩

set_option maxHeartbeats 2000000 in
theorem state_map_values :
    ∀ pr ∈ state_name_to_code, pr.2 ∈ valid_state_codes := by decide

set_option maxHeartbeats 4000000 in
theorem normalize_code_fix :
    ∀ ns ∈ valid_state_codes,
      _normalize_state_input ns = (ns, true, ns) ∧ pyStrip ns = ns ∧ ns ≠ "" := by decide


theorem normalize_valid_mem (s : String) (h : (_normalize_state_input s).2.1 = true) :
    (_normalize_state_input s).1 ∈ valid_state_codes ∧ pyStrip s ≠ "" := by
  unfold _normalize_state_input at h ⊢
  by_cases ht : pyStrip s = ""
  · rw [if_pos ht] at h
    exact absurd h (by simp)
  · rw [if_neg ht] at h ⊢
    dsimp only at h ⊢
    refine ⟨?_, ht⟩
    by_cases h1 : ((pyLower (pyStrip s)).length = 2 &&
        valid_state_codes.contains (pyUpper (pyLower (pyStrip s)))) = true
    · rw [if_pos h1]
      dsimp only
      simpa using ((Bool.and_eq_true _ _).mp h1).2
    · rw [if_neg h1] at h ⊢
      cases hl1 : lookupStr state_name_to_code (pyLower (pyStrip s)) with
      | some code =>
        simp only [hl1]
        obtain ⟨pr, hpr, hval⟩ := lookupStr_mem hl1
        rw [← hval]
        exact state_map_values pr hpr
      | none =>
        simp only [hl1] at h ⊢
        cases hl2 : lookupStr state_name_to_code (removeDotComma (pyLower (pyStrip s))) with
        | some code =>
          simp only [hl2]
          obtain ⟨pr, hpr, hval⟩ := lookupStr_mem hl2
          rw [← hval]
          exact state_map_values pr hpr
        | none =>
          simp only [hl2] at h
          exact absurd h (by simp)

theorem normalize_invalid_form (s : String) (ht : pyStrip s ≠ "")
    (h : (_normalize_state_input s).2.1 = false) :
    _normalize_state_input s = (pyUpper (pyStrip s), false, pyStrip s) ∧
    ((pyLower (pyStrip s)).length = 2 &&
      valid_state_codes.contains (pyUpper (pyLower (pyStrip s)))) = false ∧
    lookupStr state_name_to_code (pyLower (pyStrip s)) = none ∧
    lookupStr state_name_to_code (removeDotComma (pyLower (pyStrip s))) = none := by
  unfold _normalize_state_input at h ⊢
  rw [if_neg ht] at h ⊢
  dsimp only at h ⊢
  by_cases h1 : ((pyLower (pyStrip s)).length = 2 &&
      valid_state_codes.contains (pyUpper (pyLower (pyStrip s)))) = true
  · rw [if_pos h1] at h
    exact absurd h (by simp)
  · rw [if_neg h1] at h ⊢
    cases hl1 : lookupStr state_name_to_code (pyLower (pyStrip s)) with
    | some code =>
      simp only [hl1] at h
      exact absurd h (by simp)
    | none =>
      simp only [hl1] at h ⊢
      cases hl2 : lookupStr state_name_to_code (removeDotComma (pyLower (pyStrip s))) with
      | some code =>
        simp only [hl2] at h
        exact absurd h (by simp)
      | none =>
        simp only [hl2] at h ⊢
        refine ⟨by trivial, by simpa using h1, by trivial, by trivial⟩

theorem normalize_upper_strip (s : String) (ht : pyStrip s ≠ "")
    (h1 : ((pyLower (pyStrip s)).length = 2 &&
      valid_state_codes.contains (pyUpper (pyLower (pyStrip s)))) = false)
    (hl1 : lookupStr state_name_to_code (pyLower (pyStrip s)) = none)
    (hl2 : lookupStr state_name_to_code (removeDotComma (pyLower (pyStrip s))) = none) :
    (_normalize_state_input (pyUpper (pyStrip s))).2.1 = false ∧
    pyStrip (pyUpper (pyStrip s)) ≠ "" := by
  have hstrip : pyStrip (pyUpper (pyStrip s)) = pyUpper (pyStrip s) := by
    rw [pyStrip_pyUpper, pyStrip_pyStrip]
  have hne : pyUpper (pyStrip s) ≠ "" := fun hcon => ht (pyUpper_eq_empty.mp hcon)
  have hne2 : pyStrip (pyUpper (pyStrip s)) ≠ "" := by rw [hstrip]; exact hne
  refine ⟨?_, hne2⟩
  unfold _normalize_state_input
  rw [if_neg hne2]
  dsimp only
  have hcl : pyLower (pyStrip (pyUpper (pyStrip s))) = pyLower (pyStrip s) := by
    rw [hstrip, pyLower_pyUpper]
  rw [hcl]
  rw [if_neg (by rw [h1]; exact Bool.false_ne_true)]
  simp only [hl1, hl2]

theorem normalize_stable (s : String) :
    (_normalize_state_input ((_normalize_state_input s).1)).2.1 =
      (_normalize_state_input s).2.1 ∧
    ((pyStrip ((_normalize_state_input s).1) = "") ↔ (pyStrip s = "")) := by
  by_cases ht : pyStrip s = ""
  · have h0 : _normalize_state_input s = ("", false, s) := by
      unfold _normalize_state_input
      rw [if_pos ht]
    rw [h0]
    dsimp only
    exact ⟨by decide, ⟨fun _ => ht, fun _ => rfl⟩⟩
  · cases hvalid : (_normalize_state_input s).2.1 with
    | true =>
      obtain ⟨hmem, -⟩ := normalize_valid_mem s hvalid
      obtain ⟨hfix, hstripcode, hnecode⟩ := normalize_code_fix _ hmem
      rw [hfix]
      refine ⟨rfl, ?_⟩
      rw [hstripcode]
      exact iff_of_false hnecode ht
    | false =>
      obtain ⟨hform, h1, hl1, hl2⟩ := normalize_invalid_form s ht hvalid
      obtain ⟨hres, hne2⟩ := normalize_upper_strip s ht h1 hl1 hl2
      rw [hform]
      exact ⟨hres, iff_of_false hne2 ht⟩


theorem us_issues_nil_indep (st1 st2 l c z : String) (b : Bool) :
    (_validate_us_address_format_enhanced st1 l c z b = []) ↔
    (_validate_us_address_format_enhanced st2 l c z b = []) := by
  unfold _validate_us_address_format_enhanced
  cases b <;> simp

/-- C8: address categorization is idempotent on the category: replacing a
record's state with the normalized state produced by a first
categorization and categorizing again yields the same category (a
normalized valid state is itself a valid 2-letter code, so the second
normalization short-circuits on the fast path; an invalid state stays
invalid). -/
theorem C8_categorize_idempotent (addr : AddressIn) (row : Nat) (file : String) :
    (_categorize_address
        { addr with stateCd := (_categorize_address addr row file).normalized_state }
        row file).category =
      (_categorize_address addr row file).category := by
  rw [categorize_normalized_state, categorize_category, categorize_category]
  unfold categoryOf
  dsimp only
  obtain ⟨h6, h5⟩ := normalize_stable addr.stateCd
  have hmissState : (if pyStrip ((_normalize_state_input addr.stateCd).1) = ""
      then ["state"] else ([] : List String)) =
      (if pyStrip addr.stateCd = "" then ["state"] else []) := by
    by_cases hb : pyStrip addr.stateCd = ""
    · rw [if_pos (h5.mpr hb), if_pos hb]
    · rw [if_neg (fun hcon => hb (h5.mp hcon)), if_neg hb]
  rw [hmissState, h6]
  by_cases hval : _validate_us_address_format_enhanced addr.stateCd addr.line1 addr.city
      addr.zipCd (_normalize_state_input addr.stateCd).2.1 = []
  · rw [if_pos hval, if_pos ((us_issues_nil_indep ((_normalize_state_input addr.stateCd).1)
      addr.stateCd addr.line1 addr.city addr.zipCd _).mpr hval)]
  · rw [if_neg hval, if_neg (fun hcon => hval ((us_issues_nil_indep
      ((_normalize_state_input addr.stateCd).1) addr.stateCd addr.line1 addr.city
      addr.zipCd _).mp hcon))]


end NameAddressService
